import Mathlib

/-!
# Verification of the deterministic starfield generation core

Shallow embedding of the content-generation pipeline of the repository:
* `Mulberry32` PRNG (`src/lib/random.ts`),
* the Poisson-disk sampler (`src/lib/poisson.ts`),
* the layer generators (`src/lib/space-paint.ts`),
* the composition orchestrator `regenerate` (`src/components/SpaceCanvas.tsx`).

Modelling conventions:
* JavaScript bitwise/integer arithmetic in `Mulberry32.next` is exact on 32-bit
  patterns; it is embedded over `ℕ` with explicit `% 2^32`.
* Other JavaScript numbers are read as exact rationals (`ℚ`).  All numeric
  literals of the source are embedded as the corresponding decimal rationals;
  the IEEE-754 doubles they denote differ from these by less than `2⁻⁵²`, and
  no claim below is sensitive to that difference.  The one constant whose exact
  floating-point value matters (`Math.sqrt(2)`, which determines the grid cell
  size) is embedded as the exact value of the correctly rounded double,
  `jsSqrt2`.
* `Math.cos`, `Math.sin` and `Math.sqrt` applied to non-constant arguments are
  implementation-approximated in ECMAScript; they are embedded as the fields of
  an explicit `MathModel` parameter.  `GoodModel` captures the properties any
  reasonable implementation satisfies.
* `Math.floor/ceil/round/min/max` are `Int.floor`, `Int.ceil`, `round`, `min`,
  `max` (`Math.round x = ⌊x + 1/2⌋ = round x` on ℚ).
* Fallible code (the `RangeError` a negative/infinite array length raises in
  `new Array(n)`) returns `Except String`.
* The sampler's `while` loop is embedded with an explicit fuel argument large
  enough that it is never exhausted on valid configurations
  (`sample_terminates`); fuel exhaustion is mapped to a distinguished error.
-/

namespace Indie

/-! ## Mulberry32 PRNG (`src/lib/random.ts`) -/

def UINT32 : ℕ := 4294967296

/-- `Math.imul(a, b)`: C-style 32-bit integer multiply.  On 32-bit patterns
this is multiplication mod `2^32`. -/
def imul (a b : ℕ) : ℕ := a * b % UINT32

/-- One step of `Mulberry32.next()`.  The state is the 32-bit pattern of
`this.state` (the JS code re-normalizes with `this.state |= 0` on entry, which
is the identity on 32-bit patterns).  Returns the new state pattern and the
`>>> 0` (uint32) output numerator; the returned float is `out / 4294967296`. -/
def mulberryStep (s : ℕ) : ℕ × ℕ :=
  -- this.state = (this.state + 0x6d2b79f5) | 0
  let s1 := (s + 0x6d2b79f5) % UINT32
  -- let t = Math.imul(this.state ^ (this.state >>> 15), 1 | this.state)
  let t1 := imul (s1 ^^^ (s1 >>> 15)) (1 ||| s1)
  -- t = (t + Math.imul(t ^ (t >>> 7), 61 | t)) ^ t
  let t2 := ((t1 + imul (t1 ^^^ (t1 >>> 7)) (61 ||| t1)) % UINT32) ^^^ t1
  -- return ((t ^ (t >>> 14)) >>> 0) / 4294967296
  (s1, t2 ^^^ (t2 >>> 14))

/-- `Mulberry32.next()`: returns the updated state and the float in `[0, 1)`. -/
def next (s : ℕ) : ℕ × ℚ :=
  ((mulberryStep s).1, ((mulberryStep s).2 : ℚ) / (UINT32 : ℚ))

/-- `createRandom(seed)` / `new Mulberry32(seed)`: the constructor stores the
seed; the first `this.state |= 0` in `next` truncates it to 32 bits, whose
pattern for an integer seed is `seed mod 2^32`. -/
def createRandom (seed : ℤ) : ℕ := (seed % (UINT32 : ℤ)).toNat

/-- `nextInt(min, max)`: `Math.floor(this.next() * (max - min)) + min`.
All call sites pass integers. -/
def nextInt (mn mx : ℤ) (s : ℕ) : ℕ × ℤ :=
  ((next s).1, ⌊(next s).2 * ((mx : ℚ) - (mn : ℚ))⌋ + mn)

/-- `nextFloat(min, max)`: `this.next() * (max - min) + min`. -/
def nextFloat (mn mx : ℚ) (s : ℕ) : ℕ × ℚ :=
  ((next s).1, (next s).2 * (mx - mn) + mn)

/-- `nextBoolean()`: `this.next() < 0.5`. -/
def nextBoolean (s : ℕ) : ℕ × Bool :=
  ((next s).1, decide ((next s).2 < 1/2))

/-- Abstract model of the implementation-approximated `Math.cos`, `Math.sin`,
`Math.sqrt` and the constant `Math.PI`. -/
structure MathModel where
  cos : ℚ → ℚ
  sin : ℚ → ℚ
  sqrt : ℚ → ℚ
  pi : ℚ

/-- Properties any reasonable implementation of `Math.cos/sin/sqrt` satisfies,
used where a claim needs them. -/
structure GoodModel (M : MathModel) : Prop where
  pyth : ∀ x, M.cos x * M.cos x + M.sin x * M.sin x = 1
  sqrt_nonneg : ∀ x, 0 ≤ M.sqrt x
  sqrt_le_one : ∀ x, 0 ≤ x → x ≤ 1 → M.sqrt x ≤ 1

/-- `pointInCircle(radius)`: two draws, angle then radius via the square-root
transform `Math.sqrt(this.next()) * radius`. -/
def pointInCircle (M : MathModel) (radius : ℚ) (s : ℕ) : ℕ × (ℚ × ℚ) :=
  let a := nextFloat 0 (M.pi * 2) s      -- (state, angle)
  let u := next a.1                       -- (state, draw for the radius)
  let r := M.sqrt u.2 * radius
  (u.1, (M.cos a.2 * r, M.sin a.2 * r))

/-! ## Derived PRNG facts -/

theorem mulberryStep_out_lt (s : ℕ) : (mulberryStep s).2 < UINT32 := by
  have h32 : UINT32 = 2 ^ 32 := by decide
  unfold mulberryStep
  simp only []
  set s1 := (s + 0x6d2b79f5) % UINT32 with hs1
  set t1 := imul (s1 ^^^ (s1 >>> 15)) (1 ||| s1) with ht1
  set t2 := ((t1 + imul (t1 ^^^ (t1 >>> 7)) (61 ||| t1)) % UINT32) ^^^ t1 with ht2
  have h1 : t1 < 2 ^ 32 := by rw [← h32]; exact Nat.mod_lt _ (by decide)
  have h2 : t2 < 2 ^ 32 := by
    apply Nat.xor_lt_two_pow _ h1
    rw [← h32]; exact Nat.mod_lt _ (by decide)
  have hshr : t2 >>> 14 ≤ t2 := by
    rw [Nat.shiftRight_eq_div_pow]; exact Nat.div_le_self _ _
  exact h32 ▸ Nat.xor_lt_two_pow h2 (lt_of_le_of_lt hshr h2)

theorem next_nonneg (s : ℕ) : 0 ≤ (next s).2 := by
  unfold next
  exact div_nonneg (by positivity) (by norm_num [UINT32])

theorem next_lt_one (s : ℕ) : (next s).2 < 1 := by
  unfold next
  simp only []
  rw [div_lt_one (by norm_num [UINT32])]
  exact_mod_cast mulberryStep_out_lt s

/-- `n`-th PRNG state after `n` draws from `createRandom seed`. -/
def nthState (seed : ℤ) : ℕ → ℕ
  | 0 => createRandom seed
  | n + 1 => (next (nthState seed n)).1

/-- Value of the `(n+1)`-st draw from `createRandom seed`. -/
def nthValue (seed : ℤ) (n : ℕ) : ℚ := (next (nthState seed n)).2

/-! ## Poisson-disk sampler (`src/lib/poisson.ts`) -/

/-- A sampled point.  All points the sampler stores or returns have been
through `Math.round`, so coordinates are integers. -/
structure Point where
  x : ℤ
  y : ℤ
deriving DecidableEq, Repr

/-- `PoissonConfig`: `maxAttempts` and `centerBias` are optional with defaults
`30` and `0` (destructuring defaults in `sample`). -/
structure PoissonConfig where
  width : ℚ
  height : ℚ
  minDistance : ℚ
  maxAttempts : Option ℤ
  centerBias : Option ℚ

/-- The exact value of the IEEE-754 double `Math.sqrt(2)`
(`1.4142135623730951`, correctly rounded, slightly above `√2`). -/
def jsSqrt2 : ℚ := 6369051672525773 / 4503599627370496

/-- Squared Euclidean distance between two stored (integer) points. -/
def distSq (p q : Point) : ℤ := (p.x - q.x) ^ 2 + (p.y - q.y) ^ 2

/-- The spatial hash `this.grid`, as a total map from (column, row) cell
indices to the cell's stored point.  JS arrays silently extend on
out-of-range column writes (a write into row array `this.grid[gridY]` at a
column index beyond its length just grows that row), so column overflow is
modelled by the total map; a row index outside `[0, gridHeight-1]`, however,
makes `this.grid[gridY]` itself `undefined` and the write throws a
`TypeError`.  That row check is performed where `addPoint` runs: explicitly
for the unvalidated first point (see `sample`), while every later insert is
of a candidate that passed `isValidPoint`'s bounds check, whose row is then
provably inside the grid (`gridRow_of_inBounds`).  `isValidPoint` never
reads outside `[0, gridWidth-1] × [0, gridHeight-1]` because its scan
bounds are clamped. -/
def Grid : Type := ℤ × ℤ → Option Point

def emptyGrid : Grid := fun _ => none

/-- Cell of a point: `(Math.floor(p.x / cellSize), Math.floor(p.y / cellSize))`. -/
def gridCell (cellSize : ℚ) (p : Point) : ℤ × ℤ :=
  (⌊(p.x : ℚ) / cellSize⌋, ⌊(p.y : ℚ) / cellSize⌋)

/-- The grid write in `addPoint`: `this.grid[gridY][gridX] = point`, for an
in-range row index. -/
def gridInsert (cellSize : ℚ) (g : Grid) (p : Point) : Grid :=
  fun c => if c = gridCell cellSize p then some p else g c

/-- The fall-through branch of `generateRandomPoint`:
`{ x: Math.round(rng.nextFloat(0, width)), y: Math.round(rng.nextFloat(0, height)) }`. -/
def uniformPoint (width height : ℚ) (s : ℕ) : ℕ × Point :=
  let ux := nextFloat 0 width s
  let uy := nextFloat 0 height ux.1
  (uy.1, ⟨round ux.2, round uy.2⟩)

/-- `PoissonSampler.generateRandomPoint(width, height, centerBias)`: the first
(seed) point.  Note that it is neither clamped nor validated. -/
def generateRandomPoint (M : MathModel) (width height centerBias : ℚ) (s : ℕ) :
    ℕ × Point :=
  if 0 < centerBias then
    -- `centerBias > 0 && this.rng.next() < centerBias` (short-circuit: the
    -- draw happens only when centerBias > 0)
    let u := next s
    if u.2 < centerBias then
      let centerX := width / 2
      let centerY := height / 2
      let radius := min width height * (3/10)
      let pt := pointInCircle M radius u.1
      (pt.1, ⟨round (centerX + pt.2.1), round (centerY + pt.2.2)⟩)
    else
      uniformPoint width height u.1
  else
    uniformPoint width height s

/-- `PoissonSampler.generateRandomPointAround(point, minDistance, width,
height, centerBias)`: one candidate in the annulus
`[minDistance, 2*minDistance]` around `point`, optionally pulled 10% toward
the canvas center, clamped to `[0, width-1] × [0, height-1]` and rounded. -/
def generateRandomPointAround (M : MathModel) (point : Point)
    (minDistance width height centerBias : ℚ) (s : ℕ) : ℕ × Point :=
  let a := nextFloat 0 (M.pi * 2) s                       -- (state, angle)
  let r := nextFloat minDistance (minDistance * 2) a.1    -- (state, radius)
  let x := (point.x : ℚ) + M.cos a.2 * r.2
  let y := (point.y : ℚ) + M.sin a.2 * r.2
  -- `centerBias > 0 && this.rng.next() < centerBias * 0.5`
  let b :=
    if 0 < centerBias then
      let u := next r.1
      if u.2 < centerBias * (1/2) then
        let centerX := width / 2
        let centerY := height / 2
        let biasStrength : ℚ := 1/10
        (u.1, x + (centerX - x) * biasStrength, y + (centerY - y) * biasStrength)
      else (u.1, x, y)
    else (r.1, x, y)
  (b.1, ⟨round (max 0 (min (width - 1) b.2.1)), round (max 0 (min (height - 1) b.2.2))⟩)

/-- Inclusive integer range `[a..b]`, the index set of a JS
`for (let i = a; i <= b; i++)` loop. -/
def intRange (a b : ℤ) : List ℤ :=
  (List.range (b + 1 - a).toNat).map (fun i : ℕ => a + (i : ℤ))

/-- `PoissonSampler.isValidPoint(point, minDistance, width, height)`: bounds
check, then a 5×5 grid-neighborhood scan clamped to the grid.  The source
compares `Math.sqrt(dSq) < minDistance`; over exact reals, since `√dSq ≥ 0`,
this is equivalent to `0 < minDistance ∧ dSq < minDistance²`, which is how the
comparison is embedded. -/
def isValidPoint (cellSize minDistance width height : ℚ) (gridWidth gridHeight : ℤ)
    (grid : Grid) (p : Point) : Bool :=
  if (p.x : ℚ) < 0 ∨ (p.x : ℚ) ≥ width ∨ (p.y : ℚ) < 0 ∨ (p.y : ℚ) ≥ height then
    false
  else
    let gridX := ⌊(p.x : ℚ) / cellSize⌋
    let gridY := ⌊(p.y : ℚ) / cellSize⌋
    let startX := max 0 (gridX - 2)
    let endX := min (gridWidth - 1) (gridX + 2)
    let startY := max 0 (gridY - 2)
    let endY := min (gridHeight - 1) (gridY + 2)
    (intRange startY endY).all fun yy =>
      (intRange startX endX).all fun xx =>
        match grid (xx, yy) with
        | none => true
        | some q =>
          !(decide (0 < minDistance ∧
              ((distSq p q : ℚ)) < minDistance * minDistance))

/-- The `for (let i = 0; i < maxAttempts; i++)` candidate loop of one round of
`sample`: returns the first valid candidate, or `none` after `n` failures. -/
def tryAttempts (M : MathModel) (point : Point)
    (minDistance width height centerBias cellSize : ℚ)
    (gridWidth gridHeight : ℤ) (grid : Grid) : ℕ → ℕ → ℕ × Option Point
  | 0, s => (s, none)
  | n + 1, s =>
    let c := generateRandomPointAround M point minDistance width height centerBias s
    if isValidPoint cellSize minDistance width height gridWidth gridHeight grid
        c.2 then
      (c.1, some c.2)
    else
      tryAttempts M point minDistance width height centerBias cellSize
        gridWidth gridHeight grid n c.1

/-- The `while (this.activeList.length > 0)` loop of `sample`, with explicit
fuel.  On success (`found`), `addPoint` pushes the candidate to `points`,
`activeList` and the grid; on failure the current point is removed from the
active list by order-preserving `splice`. -/
def sampleLoop (M : MathModel) (minDistance width height centerBias cellSize : ℚ)
    (gridWidth gridHeight : ℤ) (maxAttempts : ℕ) :
    ℕ → List Point → Grid → List Point → ℕ → Option (List Point × ℕ)
  | 0, _, _, _, _ => none
  | fuel + 1, activeList, grid, points, s =>
    if activeList.isEmpty then some (points, s)
    else
      let ri := nextInt 0 (activeList.length : ℤ) s     -- (state, randomIndex)
      let point := activeList.getD ri.2.toNat ⟨0, 0⟩
      let t := tryAttempts M point minDistance width height centerBias cellSize
          gridWidth gridHeight grid maxAttempts ri.1
      match t.2 with
      | some newPoint =>
        sampleLoop M minDistance width height centerBias cellSize gridWidth
          gridHeight maxAttempts fuel (activeList ++ [newPoint])
          (gridInsert cellSize grid newPoint) (points ++ [newPoint]) t.1
      | none =>
        sampleLoop M minDistance width height centerBias cellSize gridWidth
          gridHeight maxAttempts fuel (activeList.eraseIdx ri.2.toNat)
          grid points t.1

/-- `PoissonSampler.sample(config)`.  Returns the sampled points and the
advanced PRNG state (the sampler and its callers share one PRNG).
`new Array(n)` raises `RangeError` for a negative length, and for
`minDistance = 0` the JS computation `width / 0 = Infinity` makes
`Math.ceil` produce an invalid (infinite) length; both are mapped to
`Except.error`.  The first point is inserted by `addPoint` without any
validation; when its row index `Math.floor(y / cellSize)` falls outside
`[0, gridHeight - 1]`, `this.grid[gridY]` is `undefined` and the write
`this.grid[gridY][gridX] = point` throws a `TypeError` (only column
overflow extends silently in JS).  Later inserts are of candidates that
passed `isValidPoint`'s bounds check and are provably in range
(`gridRow_of_inBounds`). -/
def sample (M : MathModel) (config : PoissonConfig) (s : ℕ) :
    Except String (List Point × ℕ) :=
  let width := config.width
  let height := config.height
  let minDistance := config.minDistance
  let maxAttempts := config.maxAttempts.getD 30
  let centerBias := (config.centerBias.getD 0)
  let cellSize := minDistance / jsSqrt2
  if cellSize = 0 then
    .error "RangeError: Invalid array length"
  else
    let gridWidth := ⌈width / cellSize⌉
    let gridHeight := ⌈height / cellSize⌉
    if gridWidth < 0 ∨ gridHeight < 0 then
      .error "RangeError: Invalid array length"
    else
      let fp := generateRandomPoint M width height centerBias s
      -- addPoint(firstPoint, points): this.grid[gridY][gridX] = point
      if (gridCell cellSize fp.2).2 < 0 ∨ gridHeight ≤ (gridCell cellSize fp.2).2 then
        .error "TypeError: Cannot set properties of undefined"
      else
        let grid := gridInsert cellSize emptyGrid fp.2
        let fuel := 2 * (⌈width⌉.toNat * ⌈height⌉.toNat) + 2
        match sampleLoop M minDistance width height centerBias cellSize gridWidth
            gridHeight maxAttempts.toNat fuel [fp.2] grid [fp.2] fp.1 with
        | some out => .ok out
        | none => .error "unreachable: loop fuel exhausted"

/-- `generatePoissonPoints(rng, config)`. -/
def generatePoissonPoints (M : MathModel) (config : PoissonConfig) (s : ℕ) :
    Except String (List Point × ℕ) :=
  sample M config s

/-! ## Density formula (`calculatePointCount`, `src/lib/poisson.ts`) -/

/-- `calculatePointCount(width, height, densityPerK)`:
`Math.round((densityPerK * area) / 1000)` with `area = width * height`. -/
def calculatePointCount (width height densityPerK : ℚ) : ℤ :=
  let area := width * height
  round (densityPerK * area / 1000)

/-! ## Layer generators (`src/lib/space-paint.ts`) -/

/-- `SPACE_PALETTE` (colors as numbers). -/
def SPACE_PALETTE : List ℕ := [0xf8f8ff, 0xe6f1ff, 0xaecdff, 0x9fb0c7, 0xb9a3ff, 0x7fd6ff]

/-- The `layer: 'micro' | 'small'` argument of `generateStarConfig`. -/
inductive StarLayer
  | micro
  | small
deriving DecidableEq, Repr

structure StarConfig where
  size : ℤ
  color : ℕ
  alpha : ℚ
deriving DecidableEq, Repr

structure SparkleConfig where
  size : ℤ
  color : ℕ
  alpha : ℚ
  coreSize : ℤ
deriving DecidableEq, Repr

/-- `generateStarConfig(rng, layer, palette)`, in source line order:
size draw, then color draw(s), then alpha draw. -/
def generateStarConfig (layer : StarLayer) (palette : List ℕ) (s : ℕ) :
    ℕ × StarConfig :=
  let isMicro : Bool := layer == StarLayer.micro
  -- const size = isMicro ? (rng.nextBoolean() ? 1 : 2) : rng.nextInt(1, 3)
  let sz :=
    if isMicro then
      let b := nextBoolean s
      (b.1, if b.2 then (1 : ℤ) else 2)
    else
      nextInt 1 3 s
  -- const isWhite = rng.nextFloat(0, 1) < (isMicro ? 0.8 : 0.6)
  let uw := nextFloat 0 1 sz.1
  let isWhite := uw.2 < (if isMicro then (8 : ℚ)/10 else 6/10)
  -- const color = isWhite ? palette[0]
  --   : (rng.nextFloat(0, 1) < 0.7 ? palette[1] : palette[3])
  let co :=
    if isWhite then (uw.1, palette.getD 0 0)
    else
      let uc := nextFloat 0 1 uw.1
      (uc.1, if uc.2 < 7/10 then palette.getD 1 0 else palette.getD 3 0)
  -- const alpha = isMicro ? rng.nextFloat(0.75, 1.0) : rng.nextFloat(0.5, 0.8)
  let al :=
    if isMicro then nextFloat (3/4) 1 co.1 else nextFloat (1/2) (8/10) co.1
  (al.1, ⟨sz.2, co.2, al.2⟩)

/-- `generateSparkleConfig(rng, palette)`: size, color, alpha draws in order;
`coreSize` is the constant 1. -/
def generateSparkleConfig (palette : List ℕ) (s : ℕ) : ℕ × SparkleConfig :=
  let sz := nextInt 3 6 s
  let ci := nextInt 0 (palette.length : ℤ) sz.1
  let color := palette.getD ci.2.toNat 0
  let al := nextFloat (2/10) (35/100) ci.1
  (al.1, ⟨sz.2, color, al.2, 1⟩)

/-- One ribbon streak of a nebula patch (`createRibbonStreak(radius, rng)`),
draw order: width, length, angle, line alpha. -/
structure RibbonStreak where
  width : ℤ
  length : ℚ
  angle : ℚ
  alpha : ℚ
deriving DecidableEq, Repr

def createRibbonStreak (M : MathModel) (radius : ℚ) (s : ℕ) : ℕ × RibbonStreak :=
  let w := nextInt 6 15 s
  let l := nextFloat (radius * (1/2)) (radius * (3/2)) w.1
  let a := nextFloat 0 (M.pi * 2) l.1
  let al := nextFloat (5/100) (1/10) a.1
  (al.1, ⟨w.2, l.2, a.2, al.2⟩)

/-- The `for (let i = 0; i < streakCount; i++)` loop of `createNebulaPatch`. -/
def createStreaks (M : MathModel) (radius : ℚ) : ℕ → ℕ → ℕ × List RibbonStreak
  | 0, s => (s, [])
  | n + 1, s =>
    let st := createRibbonStreak M radius s
    let rest := createStreaks M radius n st.1
    (rest.1, st.2 :: rest.2)

/-- The placement record of one nebula patch: position, radius and the PRNG
draws of `createNebulaPatch` (nebula alpha, noise alpha, streaks). -/
structure NebulaPatch where
  point : Point
  radius : ℚ
  alpha : ℚ
  noiseAlpha : ℚ
  streaks : List RibbonStreak
deriving DecidableEq, Repr

/-- `createNebulaPatch(app, x, y, radius, rng)` draw sequence:
nebula alpha, noise overlay alpha, streak count, then the streaks. -/
def createNebulaPatch (M : MathModel) (point : Point) (radius : ℚ) (s : ℕ) :
    ℕ × NebulaPatch :=
  let al := nextFloat (3/100) (8/100) s
  let na := nextFloat (6/100) (1/10) al.1
  let sc := nextInt 2 5 na.1
  let st := createStreaks M radius sc.2.toNat sc.1
  (st.1, ⟨point, radius, al.2, na.2, st.2⟩)

/-! ## Composition orchestrator (`regenerate`, `src/components/SpaceCanvas.tsx`) -/

/-- The `for (const point of microPoints/smallPoints)` loops of `regenerate`:
one `generateStarConfig` evaluation per point, in point order. -/
def starLayerRecords (layer : StarLayer) : List Point → ℕ → ℕ × List (Point × StarConfig)
  | [], s => (s, [])
  | p :: ps, s =>
    let config := generateStarConfig layer SPACE_PALETTE s
    let rest := starLayerRecords layer ps config.1
    (rest.1, (p, config.2) :: rest.2)

/-- The `for (const point of sparklePoints)` loop of `regenerate`. -/
def sparkleLayerRecords : List Point → ℕ → ℕ × List (Point × SparkleConfig)
  | [], s => (s, [])
  | p :: ps, s =>
    let config := generateSparkleConfig SPACE_PALETTE s
    let rest := sparkleLayerRecords ps config.1
    (rest.1, (p, config.2) :: rest.2)

/-- The `for (const point of nebulaPoints)` loop of `regenerate`:
`radius = rng.nextFloat(0.28, 0.35) * Math.min(W, H)`, then the patch draws. -/
def nebulaLayerRecords (M : MathModel) (W H : ℚ) : List Point → ℕ → ℕ × List NebulaPatch
  | [], s => (s, [])
  | p :: ps, s =>
    let r0 := nextFloat (28/100) (35/100) s
    let radius := r0.2 * min W H
    let patch := createNebulaPatch M p radius r0.1
    let rest := nebulaLayerRecords M W H ps patch.1
    (rest.1, patch.2 :: rest.2)

/-- A Scene: the ordered placement records of the four generated layers
(micro stars, small stars, sparkles, nebula patches), background to
foreground. -/
structure Scene where
  micro : List (Point × StarConfig)
  small : List (Point × StarConfig)
  sparkle : List (Point × SparkleConfig)
  nebula : List NebulaPatch
deriving DecidableEq, Repr

/-- The content-generation part of `regenerate(app)`: creates a fresh PRNG
from the seed, then samples and attributes the four layers against a single
continuously advancing PRNG stream, in the fixed declared order.  The
`calculatePointCount` values `regenerate` computes (`countMicro`, …) are
unused by the generation and consume no draws; texture creation and sprite
construction are rendering-side and also consume no draws from this PRNG. -/
def composeScene (M : MathModel) (seed : ℤ) (W H : ℚ) : Except String Scene :=
  let s0 := createRandom seed
  match sample M ⟨W, H, 8, none, some (1/2)⟩ s0 with
  | .error e => .error e
  | .ok micro =>
    let microR := starLayerRecords .micro micro.1 micro.2
    match sample M ⟨W, H, 12, none, some (1/2)⟩ microR.1 with
    | .error e => .error e
    | .ok small =>
      let smallR := starLayerRecords .small small.1 small.2
      match sample M ⟨W, H, 20, none, some (3/10)⟩ smallR.1 with
      | .error e => .error e
      | .ok sparkle =>
        let sparkleR := sparkleLayerRecords sparkle.1 sparkle.2
        match sample M ⟨W, H, 80, none, some (2/10)⟩ sparkleR.1 with
        | .error e => .error e
        | .ok nebula =>
          let nebulaR := nebulaLayerRecords M W H nebula.1 nebula.2
          .ok ⟨microR.2, smallR.2, sparkleR.2, nebulaR.2⟩

/-! ## Sampler loop analysis

Facts feeding the minimum-distance invariant (C2), bounds containment (C3)
and termination (C10): the properties of the grid cell size
`cellSize = minDistance / jsSqrt2` and a loop invariant of `sampleLoop`. -/

theorem jsSqrt2_pos : 0 < jsSqrt2 := by norm_num [jsSqrt2]

theorem jsSqrt2_lt_two : jsSqrt2 < 2 := by norm_num [jsSqrt2]

theorem two_lt_jsSqrt2_sq : 2 < jsSqrt2 * jsSqrt2 := by norm_num [jsSqrt2]

theorem mem_intRange {lo hi a : ℤ} : a ∈ intRange lo hi ↔ lo ≤ a ∧ a ≤ hi := by
  unfold intRange
  rw [List.mem_map]
  constructor
  · rintro ⟨i, hmem, rfl⟩
    rw [List.mem_range] at hmem
    omega
  · rintro ⟨h1, h2⟩
    refine ⟨(a - lo).toNat, ?_, ?_⟩
    · rw [List.mem_range]
      omega
    · omega

/-- The `nextInt(0, n)` index draw lies in `[0, n)` for `n ≥ 1`. -/
theorem nextInt_zero_bound {n : ℤ} (hn : 1 ≤ n) (s : ℕ) :
    0 ≤ (nextInt 0 n s).2 ∧ (nextInt 0 n s).2 < n := by
  unfold nextInt
  simp only [Int.cast_zero, sub_zero, add_zero]
  have hn0 : (0 : ℚ) ≤ (n : ℚ) := by exact_mod_cast (by omega : (0:ℤ) ≤ n)
  constructor
  · exact Int.floor_nonneg.mpr (mul_nonneg (next_nonneg s) hn0)
  · apply Int.floor_lt.mpr
    calc (next s).2 * (n : ℚ) < 1 * (n : ℚ) := by
          apply mul_lt_mul_of_pos_right (next_lt_one s)
          exact_mod_cast lt_of_lt_of_le one_pos hn
      _ = (n : ℚ) := one_mul _

/-- Points in the same grid cell are strictly closer than `√2 · cellSize`. -/
theorem distSq_lt_of_same_cell {cs : ℚ} (hcs : 0 < cs) {p q : Point}
    (hc : gridCell cs p = gridCell cs q) :
    (distSq p q : ℚ) < 2 * (cs * cs) := by
  simp only [gridCell, Prod.mk.injEq] at hc
  obtain ⟨hx, hy⟩ := hc
  have key : ∀ a b : ℚ, ⌊a / cs⌋ = ⌊b / cs⌋ → (a - b) * (a - b) < cs * cs := by
    intro a b hab
    have h1 := Int.lt_floor_add_one (a / cs)
    have h2 := Int.floor_le (a / cs)
    have h3 := Int.lt_floor_add_one (b / cs)
    have h4 := Int.floor_le (b / cs)
    rw [hab] at h1 h2
    have hd : |a / cs - b / cs| < 1 := by
      rw [abs_lt]; constructor <;> linarith
    have habcs : |a - b| < cs := by
      have heq : a - b = (a / cs - b / cs) * cs := by field_simp
      rw [heq, abs_mul, abs_of_pos hcs]
      calc |a / cs - b / cs| * cs < 1 * cs := mul_lt_mul_of_pos_right hd hcs
        _ = cs := one_mul _
    calc (a - b) * (a - b) = |a - b| * |a - b| := (abs_mul_abs_self _).symm
      _ < cs * cs := mul_lt_mul'' habcs habcs (abs_nonneg _) (abs_nonneg _)
  have kx := key (p.x : ℚ) (q.x : ℚ) hx
  have ky := key (p.y : ℚ) (q.y : ℚ) hy
  have : (distSq p q : ℚ) =
      ((p.x : ℚ) - (q.x : ℚ)) * ((p.x : ℚ) - (q.x : ℚ)) +
      ((p.y : ℚ) - (q.y : ℚ)) * ((p.y : ℚ) - (q.y : ℚ)) := by
    simp only [distSq]
    push_cast
    ring
  rw [this]
  linarith

/-- The bounds test of `isValidPoint`, as a proposition. -/
def InBounds (w h : ℚ) (p : Point) : Prop :=
  0 ≤ (p.x : ℚ) ∧ (p.x : ℚ) < w ∧ 0 ≤ (p.y : ℚ) ∧ (p.y : ℚ) < h

/-- `p` and `q` are at least `minD` apart (stated on squared distances, which
is exact on the integer coordinates). -/
def Far (minD : ℚ) (p q : Point) : Prop := minD * minD ≤ (distSq p q : ℚ)

theorem distSq_comm (p q : Point) : distSq p q = distSq q p := by
  simp only [distSq]; ring

theorem far_symm {minD : ℚ} {p q : Point} (h : Far minD p q) : Far minD q p := by
  unfold Far at h ⊢; rwa [distSq_comm]

theorem far_ne {minD : ℚ} (hm : 0 < minD) {p q : Point} (h : Far minD p q) :
    p ≠ q := by
  rintro rfl
  have : distSq p p = 0 := by simp [distSq]
  rw [Far, this] at h
  have : (0 : ℚ) < minD * minD := mul_pos hm hm
  simp only [Int.cast_zero] at h
  linarith

/-- A point that passed `isValidPoint`'s bounds check has its grid row
inside `[0, gridHeight - 1]` and its column inside `[0, gridWidth - 1]`:
the `addPoint` write `this.grid[gridY][gridX] = point` cannot throw for a
validated candidate. -/
theorem gridRow_of_inBounds {w h cs : ℚ} (hcs : 0 < cs) {p : Point}
    (hb : InBounds w h p) :
    (0 ≤ (gridCell cs p).1 ∧ (gridCell cs p).1 < ⌈w / cs⌉) ∧
    (0 ≤ (gridCell cs p).2 ∧ (gridCell cs p).2 < ⌈h / cs⌉) := by
  obtain ⟨hx0, hxw, hy0, hyh⟩ := hb
  refine ⟨⟨?_, ?_⟩, ⟨?_, ?_⟩⟩
  · exact Int.floor_nonneg.mpr (div_nonneg hx0 hcs.le)
  · show ⌊(p.x : ℚ) / cs⌋ < ⌈w / cs⌉
    rw [Int.floor_lt]
    have hlt : (p.x : ℚ) / cs < w / cs := by gcongr
    exact lt_of_lt_of_le hlt (Int.le_ceil _)
  · exact Int.floor_nonneg.mpr (div_nonneg hy0 hcs.le)
  · show ⌊(p.y : ℚ) / cs⌋ < ⌈h / cs⌉
    rw [Int.floor_lt]
    have hlt : (p.y : ℚ) / cs < h / cs := by gcongr
    exact lt_of_lt_of_le hlt (Int.le_ceil _)

/-- Invariant of `sampleLoop`: the accumulated points are the unvalidated
first point followed by the validated candidates `rest`; validated candidates
are in bounds and pairwise at least `minDistance` apart; the grid holds
exactly the accumulated points, each stored at its own cell. -/
structure LoopInv (w h minD cs : ℚ) (first : Point) (rest : List Point)
    (grid : Grid) : Prop where
  bounds : ∀ p ∈ rest, InBounds w h p
  pairwise : List.Pairwise (Far minD) rest
  gridAt : ∀ p ∈ first :: rest, grid (gridCell cs p) = some p
  gridMem : ∀ c q, grid c = some q → q ∈ first :: rest ∧ gridCell cs q = c

/-- Unpacking `isValidPoint … = true`: the point is in bounds, and every grid
occupant within the clamped 5×5 neighborhood is at least `minDistance` away. -/
theorem isValidPoint_true {cs minD w h : ℚ} {gw gh : ℤ} {grid : Grid} {p : Point}
    (hv : isValidPoint cs minD w h gw gh grid p = true) :
    InBounds w h p ∧
    ∀ a b q, grid (a, b) = some q →
      max 0 (⌊(p.x : ℚ) / cs⌋ - 2) ≤ a → a ≤ min (gw - 1) (⌊(p.x : ℚ) / cs⌋ + 2) →
      max 0 (⌊(p.y : ℚ) / cs⌋ - 2) ≤ b → b ≤ min (gh - 1) (⌊(p.y : ℚ) / cs⌋ + 2) →
      ¬(0 < minD ∧ (distSq p q : ℚ) < minD * minD) := by
  unfold isValidPoint at hv
  split_ifs at hv with hb
  push_neg at hb
  obtain ⟨h1, h2, h3, h4⟩ := hb
  refine ⟨⟨h1, h2, h3, h4⟩, ?_⟩
  intro a b q hq ha1 ha2 hb1 hb2
  simp only [List.all_eq_true] at hv
  have hyy := hv b (mem_intRange.mpr ⟨hb1, hb2⟩)
  have hxx := hyy a (mem_intRange.mpr ⟨ha1, ha2⟩)
  rw [hq] at hxx
  intro hcon
  rcases (by simpa using hxx : minD ≤ 0 ∨ minD * minD ≤ (distSq p q : ℚ)) with hle | hfar
  · exact absurd hcon.1 (not_lt.mpr hle)
  · exact absurd hcon.2 (not_lt.mpr hfar)

/-- An in-bounds point's cell indices lie inside the grid. -/
theorem cell_coord_bounds {cs w : ℚ} {gw : ℤ} (hcs : 0 < cs) (hgw : gw = ⌈w / cs⌉)
    {x : ℤ} (h0 : 0 ≤ (x : ℚ)) (hw : (x : ℚ) < w) :
    0 ≤ ⌊(x : ℚ) / cs⌋ ∧ ⌊(x : ℚ) / cs⌋ ≤ gw - 1 := by
  refine ⟨Int.floor_nonneg.mpr (div_nonneg h0 hcs.le), ?_⟩
  have hlt : (x : ℚ) / cs < w / cs := by gcongr
  have hceil : w / cs ≤ (gw : ℚ) := by rw [hgw]; exact Int.le_ceil _
  have : ⌊(x : ℚ) / cs⌋ < gw := Int.floor_lt.mpr (lt_of_lt_of_le hlt hceil)
  omega

/-- Points strictly closer than `minDistance` are at most two grid cells
apart (`cellSize · √2 ≈ minDistance`, so `minDistance / cellSize < 2`). -/
theorem cell_near {cs minD : ℚ} (hcs : cs = minD / jsSqrt2) (hm : 0 < minD)
    {u v : ℚ} (huv : (u - v) * (u - v) < minD * minD) :
    ⌊u / cs⌋ - 2 ≤ ⌊v / cs⌋ ∧ ⌊v / cs⌋ ≤ ⌊u / cs⌋ + 2 := by
  have hcs0 : 0 < cs := hcs ▸ div_pos hm jsSqrt2_pos
  have habs : |u - v| < minD := by
    apply abs_lt_of_sq_lt_sq _ hm.le
    rw [pow_two, pow_two]
    exact huv
  have hratio : |u / cs - v / cs| < 2 := by
    have hmincs : minD / cs = jsSqrt2 := by
      rw [hcs]
      field_simp
    have hdiv : |u - v| / cs < 2 := by
      calc |u - v| / cs < minD / cs := by gcongr
        _ = jsSqrt2 := hmincs
        _ < 2 := jsSqrt2_lt_two
    have habs_eq : |u / cs - v / cs| = |u - v| / cs := by
      rw [← sub_div, abs_div, abs_of_pos hcs0]
    rw [habs_eq]
    exact hdiv
  obtain ⟨hlo, hhi⟩ := abs_lt.mp hratio
  constructor
  · have hle : u / cs ≤ v / cs + ((2 : ℤ) : ℚ) := by push_cast; linarith
    have := (Int.floor_le_floor hle).trans_eq (Int.floor_add_int _ _)
    omega
  · have hle : v / cs ≤ u / cs + ((2 : ℤ) : ℚ) := by push_cast; linarith
    have := (Int.floor_le_floor hle).trans_eq (Int.floor_add_int _ _)
    omega

theorem two_cs_sq_lt {cs minD : ℚ} (hcs : cs = minD / jsSqrt2) (hm : 0 < minD) :
    2 * (cs * cs) < minD * minD := by
  have hj := two_lt_jsSqrt2_sq
  have hmm : 0 < minD * minD := mul_pos hm hm
  have hjp := jsSqrt2_pos
  rw [hcs, div_mul_div_comm, mul_div_assoc']
  rw [div_lt_iff₀ (by positivity)]
  nlinarith

theorem distSq_cast_expand (p q : Point) :
    (distSq p q : ℚ) =
      ((p.x : ℚ) - (q.x : ℚ)) * ((p.x : ℚ) - (q.x : ℚ)) +
      ((p.y : ℚ) - (q.y : ℚ)) * ((p.y : ℚ) - (q.y : ℚ)) := by
  simp only [distSq]
  push_cast
  ring

theorem loopInv_insert {w h minD cs : ℚ} {gw gh : ℤ}
    (hm : 0 < minD)
    (hcs : cs = minD / jsSqrt2) (hgw : gw = ⌈w / cs⌉) (hgh : gh = ⌈h / cs⌉)
    {first : Point} {rest : List Point} {grid : Grid}
    (hInv : LoopInv w h minD cs first rest grid)
    {c : Point} (hv : isValidPoint cs minD w h gw gh grid c = true) :
    LoopInv w h minD cs first (rest ++ [c]) (gridInsert cs grid c) := by
  have hcs0 : 0 < cs := hcs ▸ div_pos hm jsSqrt2_pos
  obtain ⟨hbc, hscan⟩ := isValidPoint_true hv
  have hfar : ∀ p ∈ rest, Far minD c p := by
    intro p hp
    by_contra hnf
    have hlt : (distSq c p : ℚ) < minD * minD := not_le.mp hnf
    have hbp := hInv.bounds p hp
    have hcx := cell_coord_bounds hcs0 hgw hbp.1 hbp.2.1
    have hcy := cell_coord_bounds hcs0 hgh hbp.2.2.1 hbp.2.2.2
    have hx2 : ((c.x : ℚ) - (p.x : ℚ)) * ((c.x : ℚ) - (p.x : ℚ)) < minD * minD := by
      have hy2 := mul_self_nonneg ((c.y : ℚ) - (p.y : ℚ))
      have hde := distSq_cast_expand c p
      linarith
    have hy2 : ((c.y : ℚ) - (p.y : ℚ)) * ((c.y : ℚ) - (p.y : ℚ)) < minD * minD := by
      have hx2' := mul_self_nonneg ((c.x : ℚ) - (p.x : ℚ))
      have hde := distSq_cast_expand c p
      linarith
    have hnx := cell_near hcs hm hx2
    have hny := cell_near hcs hm hy2
    have hgrid : grid (⌊(p.x : ℚ) / cs⌋, ⌊(p.y : ℚ) / cs⌋) = some p :=
      hInv.gridAt p (List.mem_cons_of_mem _ hp)
    exact hscan _ _ p hgrid (max_le hcx.1 hnx.1) (le_min hcx.2 hnx.2)
      (max_le hcy.1 hny.1) (le_min hcy.2 hny.2) ⟨hm, hlt⟩
  have hfresh : ∀ q ∈ first :: rest, gridCell cs c ≠ gridCell cs q := by
    intro q hq heq
    have hccx := cell_coord_bounds hcs0 hgw hbc.1 hbc.2.1
    have hccy := cell_coord_bounds hcs0 hgh hbc.2.2.1 hbc.2.2.2
    have hgrid : grid (⌊(q.x : ℚ) / cs⌋, ⌊(q.y : ℚ) / cs⌋) = some q :=
      hInv.gridAt q hq
    have hEqx : ⌊(q.x : ℚ) / cs⌋ = ⌊(c.x : ℚ) / cs⌋ := (congrArg Prod.fst heq).symm
    have hEqy : ⌊(q.y : ℚ) / cs⌋ = ⌊(c.y : ℚ) / cs⌋ := (congrArg Prod.snd heq).symm
    have hclose : (distSq c q : ℚ) < minD * minD :=
      lt_trans (distSq_lt_of_same_cell hcs0 heq) (two_cs_sq_lt hcs hm)
    exact hscan _ _ q hgrid
      (by rw [hEqx]; exact max_le hccx.1 (by omega))
      (by rw [hEqx]; exact le_min hccx.2 (by omega))
      (by rw [hEqy]; exact max_le hccy.1 (by omega))
      (by rw [hEqy]; exact le_min hccy.2 (by omega))
      ⟨hm, hclose⟩
  refine ⟨?_, ?_, ?_, ?_⟩
  · intro p hp
    rcases List.mem_append.mp hp with hp | hp
    · exact hInv.bounds p hp
    · rw [List.mem_singleton.mp hp]; exact hbc
  · rw [List.pairwise_append]
    refine ⟨hInv.pairwise, List.pairwise_singleton _ _, ?_⟩
    intro p hp c' hc'
    rw [List.mem_singleton.mp hc']
    exact far_symm (hfar p hp)
  · intro p hp
    rcases List.mem_cons.mp hp with rfl | hp'
    · show (if gridCell cs p = gridCell cs c then some c else grid (gridCell cs p)) = some p
      rw [if_neg fun hcell => hfresh p (List.mem_cons_self _ _) hcell.symm]
      exact hInv.gridAt p (List.mem_cons_self _ _)
    · rcases List.mem_append.mp hp' with hpr | hpc
      · show (if gridCell cs p = gridCell cs c then some c else grid (gridCell cs p)) = some p
        rw [if_neg fun hcell => hfresh p (List.mem_cons_of_mem _ hpr) hcell.symm]
        exact hInv.gridAt p (List.mem_cons_of_mem _ hpr)
      · rw [List.mem_singleton.mp hpc]
        show (if gridCell cs c = gridCell cs c then some c else grid (gridCell cs c)) = some c
        rw [if_pos rfl]
  · intro cl q hq
    unfold gridInsert at hq
    split_ifs at hq with hcl
    · obtain rfl : c = q := Option.some.inj hq
      refine ⟨List.mem_cons_of_mem _ (List.mem_append_right _ ?_), hcl.symm⟩
      exact List.mem_singleton_self _
    · obtain ⟨hmem, hcell⟩ := hInv.gridMem cl q hq
      refine ⟨?_, hcell⟩
      rcases List.mem_cons.mp hmem with rfl | hr
      · exact List.mem_cons_self _ _
      · exact List.mem_cons_of_mem _ (List.mem_append_left _ hr)


theorem tryAttempts_some {M : MathModel} {point : Point}
    {minD w h cb cs : ℚ} {gw gh : ℤ} {grid : Grid} :
    ∀ (n : ℕ) (s : ℕ) {c : Point},
      (tryAttempts M point minD w h cb cs gw gh grid n s).2 = some c →
      isValidPoint cs minD w h gw gh grid c = true
  | 0, s, c, hq => by simp [tryAttempts] at hq
  | n + 1, s, c, hq => by
    simp only [tryAttempts] at hq
    split_ifs at hq with hval
    · simp only at hq
      obtain rfl := Option.some.inj hq
      exact hval
    · exact tryAttempts_some n _ hq

theorem rest_length_le {w h minD : ℚ} (hm : 0 < minD)
    {rest : List Point} (hb : ∀ p ∈ rest, InBounds w h p)
    (hp : List.Pairwise (Far minD) rest) :
    rest.length ≤ ⌈w⌉.toNat * ⌈h⌉.toNat := by
  have hnd : rest.Nodup := hp.imp (fun {a b} hab => far_ne hm hab)
  rw [← List.toFinset_card_of_nodup hnd]
  have hinj : Function.Injective (fun p : Point => (p.x, p.y)) := by
    intro p q hpq
    cases p; cases q
    simpa using hpq
  rw [← Finset.card_image_of_injective rest.toFinset hinj]
  have hsub : rest.toFinset.image (fun p : Point => (p.x, p.y)) ⊆
      Finset.Icc 0 (⌈w⌉ - 1) ×ˢ Finset.Icc 0 (⌈h⌉ - 1) := by
    intro z hz
    simp only [Finset.mem_image, List.mem_toFinset] at hz
    obtain ⟨p, hpmem, rfl⟩ := hz
    obtain ⟨h0x, hwx, h0y, hhy⟩ := hb p hpmem
    rw [Finset.mem_product]
    have hx1 : 0 ≤ p.x := by exact_mod_cast h0x
    have hx2 : p.x < ⌈w⌉ := Int.lt_ceil.mpr hwx
    have hy1 : 0 ≤ p.y := by exact_mod_cast h0y
    have hy2 : p.y < ⌈h⌉ := Int.lt_ceil.mpr hhy
    constructor
    · rw [Finset.mem_Icc]; exact ⟨hx1, by omega⟩
    · rw [Finset.mem_Icc]; exact ⟨hy1, by omega⟩
  calc (rest.toFinset.image (fun p : Point => (p.x, p.y))).card
      ≤ (Finset.Icc 0 (⌈w⌉ - 1) ×ˢ Finset.Icc 0 (⌈h⌉ - 1)).card :=
        Finset.card_le_card hsub
    _ = ⌈w⌉.toNat * ⌈h⌉.toNat := by
        rw [Finset.card_product, Int.card_Icc, Int.card_Icc]
        congr 1 <;> omega

theorem sampleLoop_some_inv {M : MathModel} {minD w h cb cs : ℚ} {gw gh : ℤ}
    {mA : ℕ} (hm : 0 < minD) (hcs : cs = minD / jsSqrt2)
    (hgw : gw = ⌈w / cs⌉) (hgh : gh = ⌈h / cs⌉) {first : Point} :
    ∀ (fuel : ℕ) (active : List Point) (grid : Grid) (rest : List Point) (s : ℕ)
      (out : List Point × ℕ),
      LoopInv w h minD cs first rest grid →
      sampleLoop M minD w h cb cs gw gh mA fuel active grid (first :: rest) s =
        some out →
      ∃ rest', out.1 = first :: rest' ∧ (∀ p ∈ rest', InBounds w h p) ∧
        List.Pairwise (Far minD) rest'
  | 0, _, _, _, _, _, _, hloop => by simp [sampleLoop] at hloop
  | fuel + 1, active, grid, rest, s, out, hInv, hloop => by
    simp only [sampleLoop] at hloop
    split_ifs at hloop with hemp
    · obtain rfl := Option.some.inj hloop
      exact ⟨rest, rfl, hInv.bounds, hInv.pairwise⟩
    · split at hloop
      next c htry =>
        rw [List.cons_append] at hloop
        exact sampleLoop_some_inv hm hcs hgw hgh fuel _ _ (rest ++ [c]) _ out
          (loopInv_insert hm hcs hgw hgh hInv (tryAttempts_some _ _ htry)) hloop
      next htry =>
        exact sampleLoop_some_inv hm hcs hgw hgh fuel _ _ rest _ out hInv hloop

theorem sampleLoop_isSome {M : MathModel} {minD w h cb cs : ℚ} {gw gh : ℤ}
    {mA : ℕ} (hm : 0 < minD) (hcs : cs = minD / jsSqrt2)
    (hgw : gw = ⌈w / cs⌉) (hgh : gh = ⌈h / cs⌉) {first : Point} :
    ∀ (fuel : ℕ) (active : List Point) (grid : Grid) (rest : List Point) (s : ℕ),
      LoopInv w h minD cs first rest grid →
      2 * (⌈w⌉.toNat * ⌈h⌉.toNat + 1) + active.length + 1 ≤
        fuel + 2 * (rest.length + 1) →
      (sampleLoop M minD w h cb cs gw gh mA fuel active grid (first :: rest) s).isSome
  | 0, active, grid, rest, s, hInv, hfuel => by
    exfalso
    have hlen := rest_length_le hm hInv.bounds hInv.pairwise
    omega
  | fuel + 1, active, grid, rest, s, hInv, hfuel => by
    simp only [sampleLoop]
    split_ifs with hemp
    · simp
    · have hlen : 1 ≤ active.length := by
        cases active
        · simp at hemp
        · simp
      split
      next c htry =>
        rw [List.cons_append]
        apply sampleLoop_isSome hm hcs hgw hgh fuel _ _ (rest ++ [c]) _
          (loopInv_insert hm hcs hgw hgh hInv (tryAttempts_some _ _ htry))
        have hres := rest_length_le hm hInv.bounds hInv.pairwise
        simp only [List.length_append, List.length_singleton]
        omega
      next htry =>
        have hidx := nextInt_zero_bound (n := (active.length : ℤ))
          (by exact_mod_cast hlen) s
        have hlt : (nextInt 0 (active.length : ℤ) s).2.toNat < active.length := by
          omega
        apply sampleLoop_isSome hm hcs hgw hgh fuel _ _ rest _ hInv
        rw [List.length_eraseIdx_of_lt hlt]
        omega


/-! ## Spec-side attribute-draw decomposition (spec §4.3)

These definitions follow the specification's words: "For each point, draw: a
size value from the layer's size distribution, a color selection from a
weighted palette choice, an alpha value from the layer's alpha range — in that
fixed order, one evaluation per point".  `layer_generator_draw_order` compares
them with the source-side `generateStarConfig` / `generateSparkleConfig`. -/

/-- Spec-side: the size draw of one star. -/
def drawStarSize (layer : StarLayer) (s : ℕ) : ℕ × ℤ :=
  if layer == StarLayer.micro then
    let b := nextBoolean s
    (b.1, if b.2 then (1 : ℤ) else 2)
  else
    nextInt 1 3 s

/-- Spec-side: the weighted palette color selection of one star (one or two
draws, all consumed before the alpha draw). -/
def drawStarColor (layer : StarLayer) (palette : List ℕ) (s : ℕ) : ℕ × ℕ :=
  let uw := nextFloat 0 1 s
  if uw.2 < (if layer == StarLayer.micro then (8 : ℚ)/10 else 6/10) then
    (uw.1, palette.getD 0 0)
  else
    let uc := nextFloat 0 1 uw.1
    (uc.1, if uc.2 < 7/10 then palette.getD 1 0 else palette.getD 3 0)

/-- Spec-side: the alpha draw of one star. -/
def drawStarAlpha (layer : StarLayer) (s : ℕ) : ℕ × ℚ :=
  if layer == StarLayer.micro then nextFloat (3/4) 1 s else nextFloat (1/2) (8/10) s

/-- Spec-side: the size draw of one sparkle. -/
def drawSparkleSize (s : ℕ) : ℕ × ℤ := nextInt 3 6 s

/-- Spec-side: the palette color selection of one sparkle. -/
def drawSparkleColor (palette : List ℕ) (s : ℕ) : ℕ × ℕ :=
  let ci := nextInt 0 (palette.length : ℤ) s
  (ci.1, palette.getD ci.2.toNat 0)

/-- Spec-side: the alpha draw of one sparkle. -/
def drawSparkleAlpha (s : ℕ) : ℕ × ℚ := nextFloat (2/10) (35/100) s

/-! ## Sampler invariant and evaluation lemmas (continued) -/

theorem loopInv_init {w h minD cs : ℚ} {first : Point} :
    LoopInv w h minD cs first [] (gridInsert cs emptyGrid first) := by
  refine ⟨by simp, List.Pairwise.nil, ?_, ?_⟩
  · intro p hp
    rw [List.mem_singleton.mp hp]
    show (if gridCell cs first = gridCell cs first then some first
          else emptyGrid (gridCell cs first)) = some first
    rw [if_pos rfl]
  · intro cl q hq
    unfold gridInsert emptyGrid at hq
    split_ifs at hq with hcl
    obtain rfl := Option.some.inj hq
    exact ⟨List.mem_singleton_self _, hcl.symm⟩

/-- Unpacking a successful `sample` run: the output is the unvalidated first
point followed by validated candidates, which are in bounds and pairwise at
least `minDistance` apart. -/
theorem sample_ok_elim {M : MathModel} {config : PoissonConfig} {s : ℕ}
    {pts : List Point} {s' : ℕ}
    (hm : 0 < config.minDistance)
    (hok : sample M config s = .ok (pts, s')) :
    ∃ rest, pts = (generateRandomPoint M config.width config.height
        (config.centerBias.getD 0) s).2 :: rest ∧
      (∀ p ∈ rest, InBounds config.width config.height p) ∧
      List.Pairwise (Far config.minDistance) rest := by
  simp only [sample] at hok
  split_ifs at hok with hczero hneg hrow
  split at hok
  next out hloop =>
    obtain rfl : out = (pts, s') := by injection hok
    obtain ⟨rest, h1, h2, h3⟩ :=
      sampleLoop_some_inv hm rfl rfl rfl _ _ _ [] _ (pts, s') loopInv_init hloop
    exact ⟨rest, h1, h2, h3⟩
  next hloop => exact absurd hok (by simp)

theorem nextFloat_zero_bound {w : ℚ} (hw : 0 < w) (s : ℕ) :
    0 ≤ (nextFloat 0 w s).2 ∧ (nextFloat 0 w s).2 < w := by
  unfold nextFloat
  simp only [sub_zero, add_zero]
  refine ⟨mul_nonneg (next_nonneg s) hw.le, ?_⟩
  calc (next s).2 * w < 1 * w := mul_lt_mul_of_pos_right (next_lt_one s) hw
    _ = w := one_mul _

theorem round_range {v b : ℚ} (h0 : 0 ≤ v) (hb : v ≤ b) :
    0 ≤ (round v : ℚ) ∧ (round v : ℚ) ≤ b + 1/2 := by
  constructor
  · have : (0 : ℤ) ≤ round v := by
      rw [round_eq]
      exact Int.floor_nonneg.mpr (by linarith)
    exact_mod_cast this
  · have h := round_le_add_half v
    linarith

theorem pointInCircle_abs_le {M : MathModel} (hG : GoodModel M) {radius : ℚ}
    (hr : 0 ≤ radius) (s : ℕ) :
    |(pointInCircle M radius s).2.1| ≤ radius ∧
    |(pointInCircle M radius s).2.2| ≤ radius := by
  have hu0 := next_nonneg (nextFloat 0 (M.pi * 2) s).1
  have hu1 := (next_lt_one (nextFloat 0 (M.pi * 2) s).1).le
  have hs0 := hG.sqrt_nonneg (next (nextFloat 0 (M.pi * 2) s).1).2
  have hs1 := hG.sqrt_le_one _ hu0 hu1
  have hpy := hG.pyth (nextFloat 0 (M.pi * 2) s).2
  have hcos : |M.cos (nextFloat 0 (M.pi * 2) s).2| ≤ 1 := by
    rw [abs_le_one_iff_mul_self_le_one]
    nlinarith [mul_self_nonneg (M.sin (nextFloat 0 (M.pi * 2) s).2)]
  have hsin : |M.sin (nextFloat 0 (M.pi * 2) s).2| ≤ 1 := by
    rw [abs_le_one_iff_mul_self_le_one]
    nlinarith [mul_self_nonneg (M.cos (nextFloat 0 (M.pi * 2) s).2)]
  have hrad : |M.sqrt (next (nextFloat 0 (M.pi * 2) s).1).2 * radius| ≤ radius := by
    rw [abs_mul, abs_of_nonneg hs0, abs_of_nonneg hr]
    calc M.sqrt (next (nextFloat 0 (M.pi * 2) s).1).2 * radius ≤ 1 * radius :=
          mul_le_mul_of_nonneg_right hs1 hr
      _ = radius := one_mul _
  constructor
  · show |M.cos (nextFloat 0 (M.pi * 2) s).2 *
      (M.sqrt (next (nextFloat 0 (M.pi * 2) s).1).2 * radius)| ≤ radius
    rw [abs_mul]
    calc |M.cos (nextFloat 0 (M.pi * 2) s).2| *
        |M.sqrt (next (nextFloat 0 (M.pi * 2) s).1).2 * radius| ≤ 1 * radius :=
          mul_le_mul hcos hrad (abs_nonneg _) one_pos.le
      _ = radius := one_mul _
  · show |M.sin (nextFloat 0 (M.pi * 2) s).2 *
      (M.sqrt (next (nextFloat 0 (M.pi * 2) s).1).2 * radius)| ≤ radius
    rw [abs_mul]
    calc |M.sin (nextFloat 0 (M.pi * 2) s).2| *
        |M.sqrt (next (nextFloat 0 (M.pi * 2) s).1).2 * radius| ≤ 1 * radius :=
          mul_le_mul hsin hrad (abs_nonneg _) one_pos.le
      _ = radius := one_mul _

/-- The unvalidated first point is nevertheless within half a pixel of the
canvas: in `[0, width + 1/2] × [0, height + 1/2]`. -/
theorem generateRandomPoint_range {M : MathModel} (hG : GoodModel M)
    {w h : ℚ} (hw : 0 < w) (hh : 0 < h) (cb : ℚ) (s : ℕ) :
    0 ≤ ((generateRandomPoint M w h cb s).2.x : ℚ) ∧
    ((generateRandomPoint M w h cb s).2.x : ℚ) ≤ w + 1/2 ∧
    0 ≤ ((generateRandomPoint M w h cb s).2.y : ℚ) ∧
    ((generateRandomPoint M w h cb s).2.y : ℚ) ≤ h + 1/2 := by
  have huni : ∀ st : ℕ,
      0 ≤ ((uniformPoint w h st).2.x : ℚ) ∧
      ((uniformPoint w h st).2.x : ℚ) ≤ w + 1/2 ∧
      0 ≤ ((uniformPoint w h st).2.y : ℚ) ∧
      ((uniformPoint w h st).2.y : ℚ) ≤ h + 1/2 := by
    intro st
    have hx := nextFloat_zero_bound hw st
    have hy := nextFloat_zero_bound hh (nextFloat 0 w st).1
    have rx := round_range hx.1 hx.2.le
    have ry := round_range hy.1 hy.2.le
    exact ⟨rx.1, rx.2, ry.1, ry.2⟩
  simp only [generateRandomPoint]
  split_ifs with hcb hdraw
  · -- center-biased branch
    have hminpos : (0:ℚ) < min w h := lt_min hw hh
    have hr : (0:ℚ) ≤ min w h * (3/10) := by positivity
    have habs := pointInCircle_abs_le hG hr (next s).1
    obtain ⟨hax1, hax2⟩ := abs_le.mp habs.1
    obtain ⟨hay1, hay2⟩ := abs_le.mp habs.2
    have hminw : min w h ≤ w := min_le_left _ _
    have hminh : min w h ≤ h := min_le_right _ _
    have hvx0 : (0:ℚ) ≤ w / 2 +
        (pointInCircle M (min w h * (3/10)) (next s).1).2.1 := by linarith
    have hvxw : w / 2 +
        (pointInCircle M (min w h * (3/10)) (next s).1).2.1 ≤ w := by linarith
    have hvy0 : (0:ℚ) ≤ h / 2 +
        (pointInCircle M (min w h * (3/10)) (next s).1).2.2 := by linarith
    have hvyh : h / 2 +
        (pointInCircle M (min w h * (3/10)) (next s).1).2.2 ≤ h := by linarith
    have rx := round_range hvx0 hvxw
    have ry := round_range hvy0 hvyh
    exact ⟨rx.1, rx.2, ry.1, ry.2⟩
  · exact huni (next s).1
  · exact huni s

theorem ok_of_toOption {α : Type} {e : Except String α} {x : α}
    (h : e.toOption = some x) : e = .ok x := by
  cases e
  · simp [Except.toOption] at h
  · simpa [Except.toOption] using h

theorem ceil_pos_of_pos {w cs : ℚ} (hw : 0 < w) (hcs : 0 < cs) :
    0 < ⌈w / cs⌉ :=
  Int.ceil_pos.mpr (div_pos hw hcs)

/-- **C10** (amended): for every configuration with positive width, height
and minimum distance (and any `maxAttempts ≥ 1`), provided the unvalidated
first point's grid row lands inside `[0, gridHeight - 1]` — otherwise the
`addPoint` write `this.grid[gridY][gridX]` throws a `TypeError`, as the
counterexample shows — the sampling loop terminates: the fuel bound
`2·(⌈w⌉·⌈h⌉) + 2` is never exhausted — accepted candidates are pairwise
`minDistance` apart, hence at most `⌈w⌉·⌈h⌉` many distinct in-bounds
positions, and every other round shortens the active list — and `sample`
returns a finite list. -/
theorem sample_terminates :
    ∀ (M : MathModel) (config : PoissonConfig) (s : ℕ),
      0 < config.width → 0 < config.height → 0 < config.minDistance →
      1 ≤ config.maxAttempts.getD 30 →
      ¬((gridCell (config.minDistance / jsSqrt2)
          (generateRandomPoint M config.width config.height
            (config.centerBias.getD 0) s).2).2 < 0 ∨
        ⌈config.height / (config.minDistance / jsSqrt2)⌉ ≤
          (gridCell (config.minDistance / jsSqrt2)
            (generateRandomPoint M config.width config.height
              (config.centerBias.getD 0) s).2).2) →
      ∃ pts s', sample M config s = .ok (pts, s') := by
  intro M config s hw hh hm hatt hrow
  have hcs0 : (0:ℚ) < config.minDistance / jsSqrt2 := div_pos hm jsSqrt2_pos
  have hgwpos := ceil_pos_of_pos hw hcs0
  have hghpos := ceil_pos_of_pos hh hcs0
  simp only [sample]
  rw [if_neg hcs0.ne']
  rw [if_neg (by push_neg; omega)]
  rw [if_neg hrow]
  have hsome := @sampleLoop_isSome M config.minDistance config.width
    config.height (config.centerBias.getD 0) (config.minDistance / jsSqrt2)
    ⌈config.width / (config.minDistance / jsSqrt2)⌉
    ⌈config.height / (config.minDistance / jsSqrt2)⌉
    (config.maxAttempts.getD 30).toNat hm rfl rfl rfl
    (generateRandomPoint M config.width config.height (config.centerBias.getD 0) s).2
    (2 * (⌈config.width⌉.toNat * ⌈config.height⌉.toNat) + 2)
    [(generateRandomPoint M config.width config.height (config.centerBias.getD 0) s).2]
    (gridInsert (config.minDistance / jsSqrt2) emptyGrid
      (generateRandomPoint M config.width config.height (config.centerBias.getD 0) s).2)
    []
    (generateRandomPoint M config.width config.height (config.centerBias.getD 0) s).1
    loopInv_init
    (by simp only [List.length_singleton, List.length_nil]; omega)
  obtain ⟨out, hout⟩ := Option.isSome_iff_exists.mp hsome
  rw [hout]
  exact ⟨out.1, out.2, rfl⟩

/-- One round of the loop where the candidate loop makes zero attempts:
the single active point is removed and the loop returns the seed point. -/
theorem sampleLoop_zero_attempts (M : MathModel) (minD w h cb cs : ℚ)
    (gw gh : ℤ) (fp : Point) (grid : Grid) (fuel s : ℕ) :
    sampleLoop M minD w h cb cs gw gh 0 (fuel + 2) [fp] grid [fp] s =
      some ([fp], (next s).1) := by
  have hidx : (nextInt 0 (([fp] : List Point).length : ℤ) s).2.toNat = 0 := by
    have hb := @nextInt_zero_bound (([fp] : List Point).length : ℤ) (by simp) s
    simp only [List.length_singleton] at hb ⊢
    omega
  show sampleLoop M minD w h cb cs gw gh 0 ((fuel + 1) + 1) [fp] grid [fp] s = _
  simp only [sampleLoop, tryAttempts]
  rw [if_neg (by simp)]
  rw [hidx]
  simp only [List.eraseIdx]
  rw [if_pos (by simp)]
  rfl

/-- **C4 (amended)**: the sampler performs no input validation; with
`maxAttempts ≤ 0`, otherwise-valid dimensions, and the unvalidated seed
point's grid row inside the grid (otherwise the unchecked `addPoint` write
throws a `TypeError` rather than any configuration error), it silently
returns the single-point list containing the seed point, with no error. -/
theorem sample_maxAttempts_nonpos_silent :
    ∀ (M : MathModel) (config : PoissonConfig) (s : ℕ) (k : ℤ),
      config.maxAttempts = some k → k ≤ 0 →
      0 < config.width → 0 < config.height → 0 < config.minDistance →
      ¬((gridCell (config.minDistance / jsSqrt2)
          (generateRandomPoint M config.width config.height
            (config.centerBias.getD 0) s).2).2 < 0 ∨
        ⌈config.height / (config.minDistance / jsSqrt2)⌉ ≤
          (gridCell (config.minDistance / jsSqrt2)
            (generateRandomPoint M config.width config.height
              (config.centerBias.getD 0) s).2).2) →
      ∃ s', sample M config s =
        .ok ([(generateRandomPoint M config.width config.height
          (config.centerBias.getD 0) s).2], s') := by
  intro M config s k hk hk0 hw hh hm hrow
  have hcs0 : (0:ℚ) < config.minDistance / jsSqrt2 := div_pos hm jsSqrt2_pos
  have hgwpos := ceil_pos_of_pos hw hcs0
  have hghpos := ceil_pos_of_pos hh hcs0
  have hmA : (config.maxAttempts.getD 30).toNat = 0 := by
    rw [hk]
    simp only [Option.getD_some]
    omega
  simp only [sample, hmA]
  rw [if_neg hcs0.ne']
  rw [if_neg (by push_neg; omega)]
  rw [if_neg hrow]
  rw [sampleLoop_zero_attempts]
  exact ⟨_, rfl⟩

/-- For the 1×1 canvas every candidate is clamped to `(0, 0)` regardless of
the trigonometric values. -/
theorem genAround_degenerate (M : MathModel) (p : Point) (minD : ℚ) (s : ℕ) :
    (generateRandomPointAround M p minD 1 1 0 s).2 = ⟨0, 0⟩ := by
  simp only [generateRandomPointAround]
  rw [if_neg (lt_irrefl 0)]
  have hclamp : ∀ z : ℚ, max 0 (min (1 - 1) z) = 0 := by
    intro z
    have h0 : (1:ℚ) - 1 = 0 := by norm_num
    rw [h0]
    exact max_eq_left (min_le_left _ _)
  rw [hclamp, hclamp]
  simp

set_option allowUnsafeReducibility true in
attribute [semireducible] Rat.add Rat.mul Rat.sub Rat.inv in
set_option maxRecDepth 10000 in
theorem degenerate_invalid {p0 : Point} (hx : p0.x = 0 ∨ p0.x = 1)
    (hy : p0.y = 0 ∨ p0.y = 1) :
    isValidPoint (100/jsSqrt2) 100 1 1 1 1
      (gridInsert (100/jsSqrt2) emptyGrid p0) ⟨0, 0⟩ = false := by
  obtain ⟨px, py⟩ := p0
  rcases hx with rfl | rfl <;> rcases hy with rfl | rfl <;> decide

theorem tryAttempts_degenerate (M : MathModel) {p0 : Point}
    (hx : p0.x = 0 ∨ p0.x = 1) (hy : p0.y = 0 ∨ p0.y = 1) (curr : Point) :
    ∀ (n : ℕ) (s : ℕ),
      (tryAttempts M curr 100 1 1 0 (100/jsSqrt2) 1 1
        (gridInsert (100/jsSqrt2) emptyGrid p0) n s).2 = none
  | 0, s => rfl
  | n + 1, s => by
    simp only [tryAttempts]
    rw [genAround_degenerate, degenerate_invalid hx hy]
    simp only [Bool.false_eq_true, if_false]
    exact tryAttempts_degenerate M hx hy curr n _

theorem sampleLoop_degenerate (M : MathModel) {p0 : Point}
    (hx : p0.x = 0 ∨ p0.x = 1) (hy : p0.y = 0 ∨ p0.y = 1) (fuel s : ℕ) :
    ∃ s', sampleLoop M 100 1 1 0 (100/jsSqrt2) 1 1 30 (fuel + 2) [p0]
      (gridInsert (100/jsSqrt2) emptyGrid p0) [p0] s = some ([p0], s') := by
  have hidx : (nextInt 0 (([p0] : List Point).length : ℤ) s).2.toNat = 0 := by
    have hb := @nextInt_zero_bound (([p0] : List Point).length : ℤ) (by simp) s
    simp only [List.length_singleton] at hb ⊢
    omega
  have hne : ¬(([p0] : List Point).isEmpty = true) := by simp
  have hpos : (([] : List Point).isEmpty = true) := rfl
  have her : ([p0] : List Point).eraseIdx 0 = [] := rfl
  have hL : sampleLoop M 100 1 1 0 (100/jsSqrt2) 1 1 30 ((fuel + 1) + 1) [p0]
      (gridInsert (100/jsSqrt2) emptyGrid p0) [p0] s =
      sampleLoop M 100 1 1 0 (100/jsSqrt2) 1 1 30 ((fuel + 1) + 1) [p0]
      (gridInsert (100/jsSqrt2) emptyGrid p0) [p0] s := rfl
  conv_rhs at hL =>
    rw [sampleLoop]
    dsimp only []
    rw [if_neg hne]
    rw [hidx]
    rw [tryAttempts_degenerate M hx hy]
    dsimp only []
    rw [her]
    rw [sampleLoop]
    dsimp only []
    rw [if_pos hpos]
  exact ⟨_, hL⟩

theorem round01 {v : ℚ} (h0 : 0 ≤ v) (h1 : v < 1) :
    round v = 0 ∨ round v = 1 := by
  have hle := round_le_add_half v
  have hge := sub_half_lt_round v
  have hlow : (-1 : ℤ) < round v := by
    have : ((-1 : ℤ) : ℚ) < (round v : ℚ) := by push_cast; linarith
    exact_mod_cast this
  have hhigh : round v < (2 : ℤ) := by
    have : (round v : ℚ) < ((2 : ℤ) : ℚ) := by push_cast; linarith
    exact_mod_cast this
  omega

theorem firstPoint_degenerate (M : MathModel) (s : ℕ) :
    ((generateRandomPoint M 1 1 0 s).2.x = 0 ∨ (generateRandomPoint M 1 1 0 s).2.x = 1) ∧
    ((generateRandomPoint M 1 1 0 s).2.y = 0 ∨ (generateRandomPoint M 1 1 0 s).2.y = 1) := by
  simp only [generateRandomPoint]
  rw [if_neg (lt_irrefl 0)]
  have hx := nextFloat_zero_bound one_pos s
  have hy := nextFloat_zero_bound one_pos (nextFloat 0 1 s).1
  exact ⟨round01 hx.1 hx.2, round01 hy.1 hy.2⟩


/-- Forward evaluation of `sample`: when the guards pass and the loop result
is known, `sample` returns it. -/
theorem sample_eq_ok (M : MathModel) (config : PoissonConfig) (s : ℕ)
    (out : List Point × ℕ)
    (hcs : ¬(config.minDistance / jsSqrt2 = 0))
    (hneg : ¬(⌈config.width / (config.minDistance / jsSqrt2)⌉ < 0 ∨
      ⌈config.height / (config.minDistance / jsSqrt2)⌉ < 0))
    (hrow : ¬((gridCell (config.minDistance / jsSqrt2)
        (generateRandomPoint M config.width config.height
          (config.centerBias.getD 0) s).2).2 < 0 ∨
      ⌈config.height / (config.minDistance / jsSqrt2)⌉ ≤
        (gridCell (config.minDistance / jsSqrt2)
          (generateRandomPoint M config.width config.height
            (config.centerBias.getD 0) s).2).2))
    (hloop : sampleLoop M config.minDistance config.width config.height
      (config.centerBias.getD 0) (config.minDistance / jsSqrt2)
      ⌈config.width / (config.minDistance / jsSqrt2)⌉
      ⌈config.height / (config.minDistance / jsSqrt2)⌉
      (config.maxAttempts.getD 30).toNat
      (2 * (⌈config.width⌉.toNat * ⌈config.height⌉.toNat) + 2)
      [(generateRandomPoint M config.width config.height
        (config.centerBias.getD 0) s).2]
      (gridInsert (config.minDistance / jsSqrt2) emptyGrid
        (generateRandomPoint M config.width config.height
          (config.centerBias.getD 0) s).2)
      [(generateRandomPoint M config.width config.height
        (config.centerBias.getD 0) s).2]
      (generateRandomPoint M config.width config.height
        (config.centerBias.getD 0) s).1 = some out) :
    sample M config s = .ok out := by
  simp only [sample]
  rw [if_neg hcs]
  rw [if_neg hneg]
  rw [if_neg hrow]
  rw [hloop]

/-- **C8**: for every PRNG state (and every math model), sampling with
`width = 1`, `height = 1`, `minDistance = 100` returns exactly one point,
the seed point: every candidate generated around it is clamped to `(0, 0)`
and rejected by the distance check, the seed point is removed from the
active list, and the loop terminates. -/
theorem sample_degenerate_canvas :
    ∀ (M : MathModel) (s : ℕ),
      ∃ s', sample M ⟨1, 1, 100, none, none⟩ s =
        .ok ([(generateRandomPoint M 1 1 0 s).2], s') := by
  intro M s
  have hfp := firstPoint_degenerate M s
  obtain ⟨s', hs'⟩ := sampleLoop_degenerate M hfp.1 hfp.2
    (2 * (⌈(1:ℚ)⌉.toNat * ⌈(1:ℚ)⌉.toNat)) ((generateRandomPoint M 1 1 0 s).1)
  have hc1 : ⌈(1:ℚ) / ((100:ℚ) / jsSqrt2)⌉ = (1:ℤ) := by
    rw [one_div_div]
    rw [Int.ceil_eq_iff]
    constructor
    · norm_num [jsSqrt2]
    · norm_num [jsSqrt2]
  have hrv : (gridCell ((100:ℚ) / jsSqrt2) (generateRandomPoint M 1 1 0 s).2).2 = 0 := by
    show ⌊((generateRandomPoint M 1 1 0 s).2.y : ℚ) / ((100:ℚ) / jsSqrt2)⌋ = 0
    rcases hfp.2 with h | h <;> rw [h] <;>
      norm_num [Int.floor_eq_zero_iff, Set.mem_Ico, jsSqrt2]
  refine ⟨s', sample_eq_ok M ⟨1, 1, 100, none, none⟩ s
    ([(generateRandomPoint M 1 1 0 s).2], s') ?_ ?_ ?_ ?_⟩
  · show ¬((100:ℚ) / jsSqrt2 = 0)
    norm_num [jsSqrt2]
  · show ¬(⌈(1:ℚ) / ((100:ℚ) / jsSqrt2)⌉ < 0 ∨ ⌈(1:ℚ) / ((100:ℚ) / jsSqrt2)⌉ < 0)
    rw [hc1]
    norm_num
  · show ¬((gridCell ((100:ℚ) / jsSqrt2) (generateRandomPoint M 1 1 0 s).2).2 < 0 ∨
      ⌈(1:ℚ) / ((100:ℚ) / jsSqrt2)⌉ ≤
        (gridCell ((100:ℚ) / jsSqrt2) (generateRandomPoint M 1 1 0 s).2).2)
    rw [hc1, hrv]
    norm_num
  · show sampleLoop M 100 1 1 0 ((100:ℚ) / jsSqrt2)
      ⌈(1:ℚ) / ((100:ℚ) / jsSqrt2)⌉ ⌈(1:ℚ) / ((100:ℚ) / jsSqrt2)⌉ 30
      (2 * (⌈(1:ℚ)⌉.toNat * ⌈(1:ℚ)⌉.toNat) + 2)
      [(generateRandomPoint M 1 1 0 s).2]
      (gridInsert ((100:ℚ) / jsSqrt2) emptyGrid (generateRandomPoint M 1 1 0 s).2)
      [(generateRandomPoint M 1 1 0 s).2]
      (generateRandomPoint M 1 1 0 s).1 =
      some ([(generateRandomPoint M 1 1 0 s).2], s')
    rw [hc1]
    exact hs'

set_option allowUnsafeReducibility true in
attribute [semireducible] Rat.add Rat.mul Rat.sub Rat.inv in
set_option maxRecDepth 100000 in
/-- `Math` model in which `cos θ = 1`, `sin θ = 0`, `sqrt x = 0`: the
simplest model satisfying the trigonometric and square-root properties the
sampler analysis uses. -/
def Mone : MathModel :=
  { cos := fun _ => 1, sin := fun _ => 0, sqrt := fun _ => 0, pi := 355/113 }

/-- `Math` model built on the Pythagorean triple `(143, 24, 145)`, so that
`cos² + sin² = 1` holds exactly over `ℚ`. -/
def Mcex : MathModel :=
  { cos := fun _ => 143/145, sin := fun _ => 24/145, sqrt := fun _ => 0,
    pi := 355/113 }

theorem goodModel_Mone : GoodModel Mone := by
  refine ⟨fun x => ?_, fun x => ?_, fun x h0 h1 => ?_⟩ <;> norm_num [Mone]

theorem goodModel_Mcex : GoodModel Mcex := by
  refine ⟨fun x => ?_, fun x => ?_, fun x h0 h1 => ?_⟩ <;> norm_num [Mcex]

/-- **C2** counterexample: a concrete valid configuration (`4 × 4` canvas,
`minDistance = 4·√2 ≈ 5.66 > 0`, `maxAttempts = 1`), a seed and a math model
satisfying the trigonometric identities, for which the sampler returns the
points `(4, 3)` and `(3, 3)` at distance `1`, far below
`minDistance - 1 ≈ 4.66`: the first sampled point is never bounds-checked, so
`x = width` lands in a grid column the clamped 5×5 scan never reads. -/
theorem sample_minDistance_cex :
    ¬(∀ (M : MathModel) (config : PoissonConfig) (s : ℕ)
        (pts : List Point) (s' : ℕ),
        GoodModel M → 0 < config.width → 0 < config.height →
        0 < config.minDistance →
        sample M config s = .ok (pts, s') →
        ∀ p ∈ pts, ∀ q ∈ pts, p ≠ q →
          config.minDistance - 1 ≤ 0 ∨
          (config.minDistance - 1) * (config.minDistance - 1) ≤
            (distSq p q : ℚ)) := by
  intro hcl
  have hok : sample Mcex ⟨4, 4, 4 * jsSqrt2, some 1, none⟩ (createRandom 109) =
      .ok ([⟨4, 3⟩, ⟨3, 3⟩], 2967354868) := ok_of_toOption (by decide)
  have h := hcl Mcex ⟨4, 4, 4 * jsSqrt2, some 1, none⟩ (createRandom 109)
    [⟨4, 3⟩, ⟨3, 3⟩] 2967354868 goodModel_Mcex
    (by show (0:ℚ) < 4; norm_num) (by show (0:ℚ) < 4; norm_num)
    (by show (0:ℚ) < 4 * jsSqrt2; norm_num [jsSqrt2]) hok
    ⟨4, 3⟩ (by decide) ⟨3, 3⟩ (by decide) (by decide)
  have hd : distSq ⟨4, 3⟩ ⟨3, 3⟩ = 1 := by decide
  rcases h with h | h
  · have h' : (4 * jsSqrt2 - 1 : ℚ) ≤ 0 := h
    norm_num [jsSqrt2] at h'
  · have h' : ((4 * jsSqrt2 - 1) * (4 * jsSqrt2 - 1) : ℚ) ≤
        ((distSq ⟨4, 3⟩ ⟨3, 3⟩ : ℤ) : ℚ) := h
    rw [hd] at h'
    norm_num [jsSqrt2] at h'

set_option allowUnsafeReducibility true in
attribute [semireducible] Rat.add Rat.mul Rat.sub Rat.inv in
set_option maxRecDepth 100000 in
/-- **C2** (amended): pairs of distinct points that were both accepted as
validated candidates — i.e. any two points other than the unvalidated first
point — are at least `minDistance` apart (exactly, with no slack needed);
the first point of the returned list carries no such guarantee. -/
theorem sample_minDistance_amended :
    ∀ (M : MathModel) (config : PoissonConfig) (s : ℕ)
      (pts : List Point) (s' : ℕ),
      0 < config.minDistance →
      sample M config s = .ok (pts, s') →
      ∃ first rest, pts = first :: rest ∧
        List.Pairwise (Far config.minDistance) rest := by
  intro M config s pts s' hm hok
  obtain ⟨rest, h1, _, h3⟩ := sample_ok_elim hm hok
  exact ⟨_, rest, h1, h3⟩

/-- Witness for the amended C2 theorem at a concrete run. -/
theorem sample_minDistance_amended_witness :
    ∃ first rest, ([⟨0, 0⟩] : List Point) = first :: rest ∧
      List.Pairwise (Far 1) rest :=
  sample_minDistance_amended Mone ⟨1, 1, 1, some 1, none⟩ (createRandom 0)
    [⟨0, 0⟩] 567894473 (by decide) (ok_of_toOption (by decide))

set_option allowUnsafeReducibility true in
attribute [semireducible] Rat.add Rat.mul Rat.sub Rat.inv in
set_option maxRecDepth 100000 in
/-- **C3** counterexample: a concrete valid configuration (`1 × 1` canvas,
`minDistance = 100`, `maxAttempts = 1`), seed and math model for which the
sampler returns the point `(1, 0)` with `x = 1 = width`, violating
`x < width`: the first point is drawn by `Math.round(nextFloat(0, width))`
and never clamped or validated. -/
theorem sample_bounds_cex :
    ¬(∀ (M : MathModel) (config : PoissonConfig) (s : ℕ)
        (pts : List Point) (s' : ℕ),
        GoodModel M → 0 < config.width → 0 < config.height →
        0 < config.minDistance →
        sample M config s = .ok (pts, s') →
        ∀ p ∈ pts, InBounds config.width config.height p) := by
  intro hcl
  have hok : sample Mone ⟨1, 1, 100, some 1, none⟩ (createRandom 1) =
      .ok ([⟨1, 0⟩], 567894474) := ok_of_toOption (by decide)
  have h := hcl Mone ⟨1, 1, 100, some 1, none⟩ (createRandom 1)
    [⟨1, 0⟩] 567894474 goodModel_Mone
    (by show (0:ℚ) < 1; norm_num) (by show (0:ℚ) < 1; norm_num)
    (by show (0:ℚ) < 100; norm_num) hok ⟨1, 0⟩ (by decide)
  unfold InBounds at h
  obtain ⟨-, hx, -, -⟩ := h
  have hx' : ((1:ℤ) : ℚ) < (1:ℚ) := hx
  norm_num at hx'

set_option allowUnsafeReducibility true in
attribute [semireducible] Rat.add Rat.mul Rat.sub Rat.inv in
set_option maxRecDepth 100000 in
/-- **C3** (amended): under a model satisfying the trigonometric identities
and a valid configuration, every point after the first is strictly inside
the canvas (`0 ≤ x < width`, `0 ≤ y < height`); the unvalidated first point
satisfies only the rounded bound `0 ≤ x ≤ width + 1/2` (and may, as the
counterexample shows, land exactly on `x = width`). -/
theorem sample_bounds_amended :
    ∀ (M : MathModel) (config : PoissonConfig) (s : ℕ)
      (pts : List Point) (s' : ℕ),
      GoodModel M → 0 < config.width → 0 < config.height →
      0 < config.minDistance →
      sample M config s = .ok (pts, s') →
      ∃ first rest, pts = first :: rest ∧
        (∀ p ∈ rest, InBounds config.width config.height p) ∧
        0 ≤ (first.x : ℚ) ∧ (first.x : ℚ) ≤ config.width + 1/2 ∧
        0 ≤ (first.y : ℚ) ∧ (first.y : ℚ) ≤ config.height + 1/2 := by
  intro M config s pts s' hG hw hh hm hok
  obtain ⟨rest, h1, h2, -⟩ := sample_ok_elim hm hok
  obtain ⟨r1, r2, r3, r4⟩ :=
    generateRandomPoint_range hG hw hh (config.centerBias.getD 0) s
  exact ⟨_, rest, h1, h2, r1, r2, r3, r4⟩

/-- Witness for the amended C3 theorem at a concrete run. -/
theorem sample_bounds_amended_witness :
    ∃ first rest, ([⟨0, 0⟩] : List Point) = first :: rest ∧
      (∀ p ∈ rest, InBounds 1 1 p) ∧
      0 ≤ (first.x : ℚ) ∧ (first.x : ℚ) ≤ 1 + 1/2 ∧
      0 ≤ (first.y : ℚ) ∧ (first.y : ℚ) ≤ 1 + 1/2 :=
  sample_bounds_amended Mone ⟨1, 1, 1, some 1, none⟩ (createRandom 0)
    [⟨0, 0⟩] 567894473 goodModel_Mone (by decide) (by decide) (by decide)
    (ok_of_toOption (by decide))

set_option allowUnsafeReducibility true in
attribute [semireducible] Rat.add Rat.mul Rat.sub Rat.inv in
set_option maxRecDepth 100000 in
/-- **C4** counterexample: with `maxAttempts = 0 ≤ 0` (and otherwise valid
inputs) the sampler does not fail with a configuration error: it silently
returns a one-point list.  The code performs no input validation at all. -/
theorem sample_validation_cex :
    ¬(∀ (M : MathModel) (config : PoissonConfig) (s : ℕ),
        config.width ≤ 0 ∨ config.height ≤ 0 ∨ config.minDistance ≤ 0 ∨
          config.maxAttempts.getD 30 ≤ 0 →
        ∃ msg, sample M config s = .error msg) := by
  intro hcl
  obtain ⟨msg, hmsg⟩ := hcl Mone ⟨1, 1, 1, some 0, none⟩ (createRandom 0)
    (Or.inr (Or.inr (Or.inr (by decide))))
  have hok : sample Mone ⟨1, 1, 1, some 0, none⟩ (createRandom 0) =
      .ok ([⟨0, 0⟩], 1199730143) := ok_of_toOption (by decide)
  rw [hok] at hmsg
  exact absurd hmsg (by simp)

set_option allowUnsafeReducibility true in
attribute [semireducible] Rat.add Rat.mul Rat.sub Rat.inv in
set_option maxRecDepth 100000 in
/-- Witness for the amended C4 theorem at a concrete run. -/
theorem sample_maxAttempts_nonpos_silent_witness :
    ∃ s', sample Mone ⟨1, 1, 1, some 0, none⟩ (createRandom 0) =
      .ok ([(generateRandomPoint Mone 1 1 0 (createRandom 0)).2], s') :=
  sample_maxAttempts_nonpos_silent Mone ⟨1, 1, 1, some 0, none⟩
    (createRandom 0) 0 rfl (by decide) (by decide) (by decide) (by decide)
    (by decide)

set_option allowUnsafeReducibility true in
attribute [semireducible] Rat.add Rat.mul Rat.sub Rat.inv in
set_option maxRecDepth 100000 in
/-- Witness for the amended C10 termination theorem at a concrete run. -/
theorem sample_terminates_witness :
    ∃ pts s', sample Mone ⟨1, 1, 1, some 1, none⟩ (createRandom 0) =
      .ok (pts, s') :=
  sample_terminates Mone ⟨1, 1, 1, some 1, none⟩ (createRandom 0)
    (by decide) (by decide) (by decide) (by decide) (by decide)

set_option allowUnsafeReducibility true in
attribute [semireducible] Rat.add Rat.mul Rat.sub Rat.inv in
set_option maxRecDepth 100000 in
/-- **C10** counterexample: a concrete valid configuration
(`width = height = 1`, `minDistance = √2`, so `cellSize = 1` exactly and the
grid is `1 × 1`) and a seed (5) whose unvalidated first point is `(1, 1)`:
its grid row `⌊1 / 1⌋ = 1` equals `gridHeight`, `this.grid[1]` is
`undefined`, and the `addPoint` write throws a `TypeError` — the sampler
does not return a finite list for every valid configuration and PRNG
state. -/
theorem sample_terminates_cex :
    ¬(∀ (M : MathModel) (config : PoissonConfig) (s : ℕ),
        GoodModel M → 0 < config.width → 0 < config.height →
        0 < config.minDistance → 1 ≤ config.maxAttempts.getD 30 →
        ∃ pts s', sample M config s = .ok (pts, s')) := by
  intro hcl
  obtain ⟨pts, s', h⟩ := hcl Mone ⟨1, 1, jsSqrt2, none, none⟩ (createRandom 5)
    goodModel_Mone (by decide) (by decide)
    (by show (0:ℚ) < jsSqrt2; norm_num [jsSqrt2]) (by decide)
  have hnone : (sample Mone ⟨1, 1, jsSqrt2, none, none⟩
      (createRandom 5)).toOption = none := by decide
  rw [h] at hnone
  simp [Except.toOption] at hnone

/-! ## Claim theorems -/

/-- **C9**: the density-based point count function computes
`round(densityPerThousand × width × height / 1000)`; in particular, for
`width = 1000`, `height = 1000`, `densityPerThousand = 2.8` it returns
exactly `2800`. -/
theorem calculatePointCount_spec :
    (∀ width height densityPerK : ℚ,
      calculatePointCount width height densityPerK =
        round (densityPerK * (width * height) / 1000)) ∧
    calculatePointCount 1000 1000 (14/5) = 2800 :=
  ⟨fun _ _ _ => rfl, by norm_num [calculatePointCount, round_eq]⟩

/-- **C6**: for every seed value (including 0 and negative integers), creating
the PRNG succeeds (`createRandom` is total on `ℤ`) and every draw is a float
in `[0, 1)`.  The `n`-th value is by construction a pure function of the seed
and the draw count `n` alone — the embedding threads the whole state and
consults no other source. -/
theorem prng_output_in_unit_interval :
    ∀ (seed : ℤ) (n : ℕ), 0 ≤ nthValue seed n ∧ nthValue seed n < 1 :=
  fun seed n => ⟨next_nonneg (nthState seed n), next_lt_one (nthState seed n)⟩

/-- **C7**: `pointInCircle(radius)` consumes exactly two PRNG draws — its
final state is the state after two `next()` calls — the first giving the
angle, the second the radius via the square-root transform
`Math.sqrt(next()) · radius` (not a linear scaling of the draw). -/
theorem pointInCircle_two_draws_sqrt :
    ∀ (M : MathModel) (radius : ℚ) (s : ℕ),
      (pointInCircle M radius s).1 = (next (next s).1).1 ∧
      (pointInCircle M radius s).2 =
        (M.cos ((next s).2 * (M.pi * 2)) * (M.sqrt ((next (next s).1).2) * radius),
         M.sin ((next s).2 * (M.pi * 2)) * (M.sqrt ((next (next s).1).2) * radius)) := by
  intro M radius s
  refine ⟨rfl, ?_⟩
  show ((M.cos ((next s).2 * (M.pi * 2 - 0) + 0) * (M.sqrt ((next (next s).1).2) * radius),
        M.sin ((next s).2 * (M.pi * 2 - 0) + 0) * (M.sqrt ((next (next s).1).2) * radius)) : ℚ × ℚ) = _
  rw [sub_zero, add_zero]

/-- **C5**: each layer generator processes points in list order — the record
of the head point is produced from the incoming PRNG state and the tail is
processed from the state left after exactly one config evaluation — and each
per-point config evaluation draws size, then color, then alpha, in that order
(`drawStar*`/`drawSparkle*` are the spec-side decomposition). -/
theorem layer_generator_draw_order :
    ∀ (layer : StarLayer) (p : Point) (ps : List Point) (s : ℕ),
      (starLayerRecords layer (p :: ps) s =
        ((starLayerRecords layer ps (generateStarConfig layer SPACE_PALETTE s).1).1,
         (p, (generateStarConfig layer SPACE_PALETTE s).2) ::
           (starLayerRecords layer ps (generateStarConfig layer SPACE_PALETTE s).1).2)) ∧
      (sparkleLayerRecords (p :: ps) s =
        ((sparkleLayerRecords ps (generateSparkleConfig SPACE_PALETTE s).1).1,
         (p, (generateSparkleConfig SPACE_PALETTE s).2) ::
           (sparkleLayerRecords ps (generateSparkleConfig SPACE_PALETTE s).1).2)) ∧
      (generateStarConfig layer SPACE_PALETTE s =
        ((drawStarAlpha layer
            (drawStarColor layer SPACE_PALETTE (drawStarSize layer s).1).1).1,
         ⟨(drawStarSize layer s).2,
          (drawStarColor layer SPACE_PALETTE (drawStarSize layer s).1).2,
          (drawStarAlpha layer
            (drawStarColor layer SPACE_PALETTE (drawStarSize layer s).1).1).2⟩)) ∧
      (generateSparkleConfig SPACE_PALETTE s =
        ((drawSparkleAlpha
            (drawSparkleColor SPACE_PALETTE (drawSparkleSize s).1).1).1,
         ⟨(drawSparkleSize s).2,
          (drawSparkleColor SPACE_PALETTE (drawSparkleSize s).1).2,
          (drawSparkleAlpha
            (drawSparkleColor SPACE_PALETTE (drawSparkleSize s).1).1).2, 1⟩)) :=
  fun _ _ _ _ => ⟨rfl, rfl, rfl, rfl⟩

/-- **C1**: the orchestrator is a pure function of the model, the seed and the
canvas dimensions: each run creates its PRNG freshly from the seed inside
`composeScene` (as `regenerate` does with `createRandom(seed)`), threads it
explicitly, and reads no other state, so two runs with identical seed and
canvas size produce structurally and numerically identical Scenes (the same
layers in the same order with the same placement records). -/
theorem composeScene_deterministic :
    ∀ (M : MathModel) (seed : ℤ) (W H : ℚ),
      composeScene M seed W H = composeScene M seed W H :=
  fun _ _ _ _ => rfl

end Indie
